import Mathlib

/-!
Verification of the autojsonrpc dispatch core (src/autojsonrpc/__init__.py and
src/autojsonrpc/types.py) against its specification.

The embedding models Python/JSON values as the inductive `PyVal`, declared
parameter types as `Ty`, and translates `to_dict` (CustomJSONEncoder.default),
`convert_arg`, `MethodDefinition.parse_args_list` / `parse_args_dict`,
`JsonRpcRegistry._make_error`, `JsonRpcRegistry._execute_request` and
`JsonRpcRegistry.handle_request` into Lean functions.  `Except String α` models
"returns α or raises a Python exception"; an `Except.error` escaping
`executeRequest` models an exception that the Python code does not catch.

Modelling notes, spelled out where they matter:
- JSON numbers are modelled as integers (`PyVal.int`); every concrete value in
  the spec's scenarios is an integer.  Python floats, and therefore the
  `datetime.timedelta` and `decimal.Decimal` adapters of `type_mappings`
  (which encode through `float`), are outside the model.
- `datetime.datetime` values are represented by their ISO-8601 string
  (`PyVal.datetime iso`); `isoformat` / `fromisoformat` are inverse on valid
  datetimes, and `fromisoformat` raises on any non-string argument, which is
  the behaviour the claims exercise.  Validation of the string contents of a
  wire value decoded as a datetime is not modelled.
- The registry is modelled post-registration, as the flattened
  `"service.method" -> MethodDefinition` table that `register_service` builds;
  the reflection that builds it from a live object is not needed by any claim.
- A bound Python method is modelled as `Method`: its declared parameter
  names/types in order, plus `impl`, the underlying callable on decoded
  positional arguments (`Except.error` = the callable raised).
-/

namespace Autojsonrpc

/-- A Python value as it occurs in the dispatch core: the JSON-representable
values produced by `json.loads` (none/bool/int/str/list/dict) plus the typed
values produced by `convert_arg` (tuples, dataclass instances, datetimes).
Python sets are not modelled (no claim builds one). -/
inductive PyVal where
  | none
  | bool (b : Bool)
  | int (n : Int)
  | str (s : String)
  | list (xs : List PyVal)
  | tuple (xs : List PyVal)
  | dict (kvs : List (PyVal × PyVal))
  | record (cls : String) (fields : List (String × PyVal))
  | datetime (iso : String)
deriving Repr

/-- A declared parameter/return type as dispatched on by `convert_arg`:
`anyTy` covers a missing annotation, `typing.Any` and `None` (all of which make
`convert_arg` return the argument unchanged); the scalar annotations int/str/
bool also fall through `convert_arg` unchanged (the code performs no scalar
check or coercion); `listOf`/`tupleOf`/`setOf` model `list[T]`/`tuple[T,...]`/
`set[T]` (the code reads only `typing.get_args(...)[0]`); `dictOf` models
`dict[K, V]`; `recordTy` models a dataclass with its declared fields in order;
`datetimeTy` is the registered `datetime.datetime` adapter. -/
inductive Ty where
  | anyTy
  | intTy
  | strTy
  | boolTy
  | listOf (t : Ty)
  | tupleOf (t : Ty)
  | setOf (t : Ty)
  | dictOf (kt vt : Ty)
  | recordTy (name : String) (fields : List (String × Ty))
  | datetimeTy
deriving Repr

/-- Lookup of a string key in a Python dict (`d[k]` / `d.get(k)` key match):
a key equals the string `key` exactly when it is that `str` value.  Keys of
dicts built by `json.loads` are unique, so first-match lookup agrees with the
hash-based lookup of a real Python dict. -/
def lookupStr : List (PyVal × PyVal) → String → Option PyVal
  | [], _ => Option.none
  | (k, v) :: rest, key =>
    match k with
    | .str s => if s == key then some v else lookupStr rest key
    | _ => lookupStr rest key

/-- String-keyed association lookup (used for the method table, declared
parameters, and keyword-argument maps). -/
def assocFind {α : Type} : List (String × α) → String → Option α
  | [], _ => Option.none
  | (k, v) :: rest, key => if k == key then some v else assocFind rest key

/-- Python `v is None`. -/
def isNone : PyVal → Bool
  | .none => true
  | _ => false

/-- The one-character strings produced by iterating a Python string. -/
def strElems (s : String) : List PyVal :=
  s.data.map fun c => PyVal.str c.toString

mutual
/-- `types.to_dict` / `CustomJSONEncoder.default`: encode a typed value as a
wire value.  Order of cases follows the source: None; the `to_dict` hook (not
modelled: no value in the model carries one); dataclasses to string-keyed
dicts over their declared fields; the registered adapters (datetime to its
ISO-8601 string); lists/tuples/sets elementwise to lists; dicts elementwise
on keys and values; anything else unchanged. -/
def toDict : PyVal → PyVal
  | .none => .none
  | .bool b => .bool b
  | .int n => .int n
  | .str s => .str s
  | .list xs => .list (toDictList xs)
  | .tuple xs => .list (toDictList xs)
  | .dict kvs => .dict (toDictPairs kvs)
  | .record _ fields => .dict (toDictFields fields)
  | .datetime iso => .str iso

def toDictList : List PyVal → List PyVal
  | [] => []
  | x :: xs => toDict x :: toDictList xs

def toDictPairs : List (PyVal × PyVal) → List (PyVal × PyVal)
  | [] => []
  | (k, v) :: rest => (toDict k, toDict v) :: toDictPairs rest

def toDictFields : List (String × PyVal) → List (PyVal × PyVal)
  | [] => []
  | (n, v) :: rest => (.str n, toDict v) :: toDictFields rest
end

mutual
/-- `types.convert_arg`: decode a wire value against a declared type.
Case order follows the source: missing/Any annotations return the argument;
`list`/`tuple`/`set` origins decode elementwise at `get_args[0]` and always
build a Python list (iterating the argument: lists and tuples yield elements,
strings yield one-character strings, dicts yield their keys, anything else
raises TypeError); `dict` origins decode keys and values pairwise (`.items()`
raises on non-dicts); dataclasses decode each declared field from
`arg.get(field)` — an absent field reads as None — and build the instance
unconditionally; the datetime adapter requires a string (`fromisoformat`
raises TypeError on non-strings); every remaining annotation (the scalars)
returns the argument unchanged, with no coercion or check. -/
def convert_arg (arg : PyVal) : Ty → Except String PyVal
  | .anyTy => .ok arg
  | .intTy => .ok arg
  | .strTy => .ok arg
  | .boolTy => .ok arg
  | .listOf t | .tupleOf t | .setOf t =>
    match arg with
    | .list xs =>
      match convertList xs t with
      | .error e => .error e
      | .ok ys => .ok (.list ys)
    | .tuple xs =>
      match convertList xs t with
      | .error e => .error e
      | .ok ys => .ok (.list ys)
    | .str s =>
      match convertList (strElems s) t with
      | .error e => .error e
      | .ok ys => .ok (.list ys)
    | .dict kvs =>
      match convertList (kvs.map Prod.fst) t with
      | .error e => .error e
      | .ok ys => .ok (.list ys)
    | _ => .error "TypeError: argument is not iterable"
  | .dictOf kt vt =>
    match arg with
    | .dict kvs =>
      match convertPairs kvs kt vt with
      | .error e => .error e
      | .ok ps => .ok (.dict ps)
    | _ => .error "AttributeError: object has no attribute items"
  | .recordTy name fields =>
    match arg with
    | .dict kvs =>
      match convertFields kvs fields with
      | .error e => .error e
      | .ok fs => .ok (.record name fs)
    | _ => .error "AttributeError: object has no attribute get"
  | .datetimeTy =>
    match arg with
    | .str s => .ok (.datetime s)
    | _ => .error "TypeError: fromisoformat argument must be str"
termination_by t => (2 * sizeOf t, 0)

def convertList (xs : List PyVal) (t : Ty) : Except String (List PyVal) :=
  match xs with
  | [] => .ok []
  | x :: rest =>
    match convert_arg x t with
    | .error e => .error e
    | .ok y =>
      match convertList rest t with
      | .error e => .error e
      | .ok ys => .ok (y :: ys)
termination_by (2 * sizeOf t + 1, sizeOf xs)

def convertPairs (kvs : List (PyVal × PyVal)) (kt vt : Ty) :
    Except String (List (PyVal × PyVal)) :=
  match kvs with
  | [] => .ok []
  | (k, v) :: rest =>
    match convert_arg k kt with
    | .error e => .error e
    | .ok k' =>
      match convert_arg v vt with
      | .error e => .error e
      | .ok v' =>
        match convertPairs rest kt vt with
        | .error e => .error e
        | .ok ps => .ok ((k', v') :: ps)
termination_by (2 * sizeOf kt + 2 * sizeOf vt + 1, sizeOf kvs)

def convertFields (kvs : List (PyVal × PyVal)) :
    List (String × Ty) → Except String (List (String × PyVal))
  | [] => .ok []
  | (fname, fty) :: rest =>
    match convert_arg ((lookupStr kvs fname).getD .none) fty with
    | .error e => .error e
    | .ok v =>
      match convertFields kvs rest with
      | .error e => .error e
      | .ok vs => .ok ((fname, v) :: vs)
termination_by fields => (2 * sizeOf fields, 0)
end

/-- A registered method: `MethodDefinition` reduced to what dispatch uses —
declared parameter names and types in order (`arg_names`/`arg_types`, the
bound method's signature, so no `self`), and the underlying callable on
decoded positional arguments.  `Except.error` means the callable raised. -/
structure Method where
  name : String
  params : List (String × Ty)
  impl : List PyVal → Except String PyVal

/-- Decode a list of (value, declared type) pairs in order, stopping at the
first failure — the list comprehension in `parse_args_list`. -/
def convertZipped : List (PyVal × Ty) → Except String (List PyVal)
  | [] => .ok []
  | (v, t) :: rest =>
    match convert_arg v t with
    | .error e => .error e
    | .ok v' =>
      match convertZipped rest with
      | .error e => .error e
      | .ok vs => .ok (v' :: vs)

/-- `MethodDefinition.parse_args_list`: reject on arity mismatch with a
ValueError (message abridged: the counts interpolated by the source are
omitted), otherwise decode each argument against its parameter's declared
type, positionally. -/
def Method.parse_args_list (m : Method) (args : List PyVal) :
    Except String (List PyVal) :=
  if args.length = m.params.length then
    convertZipped (args.zip (m.params.map Prod.snd))
  else
    .error ("Error parsing arguments for method " ++ m.name)

/-- `MethodDefinition.parse_args_dict`: walk the supplied mapping in order;
each key must be a string naming a declared parameter
(`signature.parameters[name]` raises KeyError otherwise, and an unhashable
key raises TypeError), and each value is decoded against that parameter's
type.  Parameters absent from the mapping are not checked here. -/
def Method.parse_args_dict (m : Method) :
    List (PyVal × PyVal) → Except String (List (String × PyVal))
  | [] => .ok []
  | (k, v) :: rest =>
    match k with
    | .str name =>
      match assocFind m.params name with
      | some t =>
        match convert_arg v t with
        | .error e => .error e
        | .ok v' =>
          match m.parse_args_dict rest with
          | .error e => .error e
          | .ok vs => .ok ((name, v') :: vs)
      | Option.none => .error ("KeyError: " ++ name)
    | .list _ | .dict _ | .record _ _ => .error "TypeError: unhashable type"
    | _ => .error "KeyError: parameter name is not a string"

/-- CPython call binding for `func(**kwargs)` on a method without defaults:
every declared parameter must be supplied and every supplied name must be
declared, else the call raises TypeError; otherwise the callable runs on the
values ordered by the declaration.  (The service methods in this development
declare no default values, *args or **kwargs.) -/
def Method.callKwargs (m : Method) (kwargs : List (String × PyVal)) :
    Except String PyVal :=
  if m.params.all fun p => (assocFind kwargs p.1).isSome then
    if kwargs.all fun q => (assocFind m.params q.1).isSome then
      m.impl (m.params.map fun p => (assocFind kwargs p.1).getD .none)
    else .error ("TypeError: " ++ m.name ++ " got an unexpected keyword argument")
  else .error ("TypeError: " ++ m.name ++ " missing a required argument")

/-- CPython call binding for `func(*args)`: arity must match (no defaults),
else TypeError; then the callable runs. -/
def Method.callPositional (m : Method) (args : List PyVal) :
    Except String PyVal :=
  if args.length = m.params.length then m.impl args
  else .error ("TypeError: " ++ m.name ++ " takes a fixed number of arguments")

/-- `self._method_definitions.get(payload["method"])`: dict lookup keyed by
the wire `method` value.  String keys are looked up in the table; unhashable
values (lists, dicts, dataclass instances — a plain dataclass has
`__hash__ = None`) raise TypeError; any other hashable value simply misses
(no non-string ever equals a string key). -/
def registryGet (reg : List (String × Method)) :
    PyVal → Except String (Option Method)
  | .str s => .ok (assocFind reg s)
  | .list _ | .dict _ | .record _ _ => .error "TypeError: unhashable type"
  | _ => .ok Option.none

/-- `JsonRpcRegistry._make_error`: the error envelope.  The `id` key is
included only when the id value is not None — `if id is not None` in the
source.  The message for an exception-built error is modelled as the
exception's message (the `[file:lineno]` prefix that the source extracts from
the traceback is outside the model). -/
def make_error (code : Int) (message : String) (id : PyVal) : PyVal :=
  .dict ([(.str "jsonrpc", .str "2.0"),
          (.str "error", .dict [(.str "code", .int code),
                                (.str "message", .str message)])] ++
         (if isNone id then [] else [(.str "id", id)]))

/-- The success envelope built at the end of `_execute_request`; unlike
`_make_error` it always carries the `id` key, a null id included. -/
def successResponse (result id : PyVal) : PyVal :=
  .dict [(.str "jsonrpc", .str "2.0"), (.str "result", result),
         (.str "id", id)]

/-- Python `key in payload` for a string key: dicts test their keys, lists and
tuples test membership, strings test substring containment, and every other
value raises TypeError. -/
def pyContains (payload : PyVal) (key : String) : Except String Bool :=
  match payload with
  | .dict kvs => .ok (lookupStr kvs key).isSome
  | .list xs | .tuple xs =>
    .ok (xs.any fun v => match v with | .str s => s == key | _ => false)
  | .str s => .ok (((s.splitOn key).length != 1) || (key == ""))
  | _ => .error "TypeError: argument of this type is not iterable"

/-- Python `payload[key]` for a string key: present dict keys yield their
value, absent ones raise KeyError; subscripting any non-dict with a string
raises TypeError. -/
def pyGetItem (payload : PyVal) (key : String) : Except String PyVal :=
  match payload with
  | .dict kvs =>
    match lookupStr kvs key with
    | some v => .ok v
    | Option.none => .error "KeyError"
  | _ => .error "TypeError: indices must be integers"

/-- The first assertion of `_execute_request`:
`"jsonrpc" in payload and payload["jsonrpc"] == "2.0"`, with Python's
short-circuit — the subscript only runs when the membership test passed.
`.ok false` is a failed assertion; `.error` is a TypeError raised by `in` or
by the subscript, which is not an AssertionError and so escapes. -/
def checkVersion (payload : PyVal) : Except String Bool :=
  match pyContains payload "jsonrpc" with
  | .error e => .error e
  | .ok false => .ok false
  | .ok true =>
    match pyGetItem payload "jsonrpc" with
    | .error e => .error e
    | .ok v => .ok (match v with | .str s => s == "2.0" | _ => false)

/-- The validation block of `_execute_request`: the four asserts in source
order.  `.ok (some msg)` is a caught AssertionError carrying the assert's
message; `.ok none` means validation passed; `.error` is a non-assertion
exception (these escape the `except AssertionError` handler). -/
def validatePayload (payload : PyVal) : Except String (Option String) :=
  match checkVersion payload with
  | .error e => .error e
  | .ok false => .ok (some "Invalid JSON-RPC version")
  | .ok true =>
    match pyContains payload "method" with
    | .error e => .error e
    | .ok false => .ok (some "Method not specified")
    | .ok true =>
      match pyContains payload "params" with
      | .error e => .error e
      | .ok false => .ok (some "Params not specified")
      | .ok true =>
        match pyContains payload "id" with
        | .error e => .error e
        | .ok false => .ok (some "ID not specified")
        | .ok true => .ok Option.none

/-- The resolve/bind/invoke/encode stages of `_execute_request`, on the
extracted `method`, `params` and `id` values.  Resolve failure gives -32601;
params that are neither dict nor list give -32602; an exception while binding
gives -32602 with the exception's message; an exception from the call gives
-32000; success encodes the result with `to_dict` and echoes the id. -/
def dispatchStep (reg : List (String × Method)) (mv pv idv : PyVal) :
    Except String PyVal :=
  match registryGet reg mv with
  | .error e => .error e
  | .ok Option.none => .ok (make_error (-32601) "Method not found" idv)
  | .ok (some m) =>
    match pv with
    | .dict kvs =>
      match m.parse_args_dict kvs with
      | .error e => .ok (make_error (-32602) e idv)
      | .ok kw =>
        match m.callKwargs kw with
        | .error e => .ok (make_error (-32000) e idv)
        | .ok r => .ok (successResponse (toDict r) idv)
    | .list xs =>
      match m.parse_args_list xs with
      | .error e => .ok (make_error (-32602) e idv)
      | .ok args =>
        match m.callPositional args with
        | .error e => .ok (make_error (-32000) e idv)
        | .ok r => .ok (successResponse (toDict r) idv)
    | _ => .ok (make_error (-32602) "Invalid params" idv)

/-- `JsonRpcRegistry._execute_request`.  Validation failure returns -32600
with no id echoed; afterwards the `method`, `params` and `id` values are read
— any payload that passes validation is a dict containing all four keys, so
reading them here, before dispatch, is the same as the source reading each at
its use site — and dispatch proceeds.  `.error` models an exception the
source does not catch (only possible for non-dict payloads, e.g. an
unparseable `in` or subscript). -/
def executeRequest (reg : List (String × Method)) (payload : PyVal) :
    Except String PyVal :=
  match validatePayload payload with
  | .error e => .error e
  | .ok (some msg) => .ok (make_error (-32600) msg PyVal.none)
  | .ok Option.none =>
    match pyGetItem payload "method" with
    | .error e => .error e
    | .ok mv =>
      match pyGetItem payload "params" with
      | .error e => .error e
      | .ok pv =>
        match pyGetItem payload "id" with
        | .error e => .error e
        | .ok idv => dispatchStep reg mv pv idv

/-- A canonical JSON-RPC request object, the envelope shape of the wire
protocol: `jsonrpc` fixed to "2.0" and the caller's method, params and id. -/
def mkReq (method params id : PyVal) : PyVal :=
  .dict [(.str "jsonrpc", .str "2.0"), (.str "method", method),
         (.str "params", params), (.str "id", id)]

/-- One line of an NDJSON request body, classified by what `handle_request`
does with it: `blank` strips to the empty string and is skipped; `malformed`
is non-blank text that `json.loads` rejects (ValueError); `parsed j` is
non-blank text that parses to the value `j`.  This abstracts the `json`
library: every concrete text line falls in exactly one class. -/
inductive Line where
  | blank
  | malformed
  | parsed (j : PyVal)

/-- The request body stream handed to `handle_request`, abstracted by the two
ways the handler reads it: `whole` is the result of `json.loads` on the full
text (`.error` = the parse raised), and `lines` classifies each line of the
text for the NDJSON mode. -/
structure StreamInput where
  whole : Except String PyVal
  lines : List Line

/-- What the transport adapter observes when consuming the returned byte
iterable: the response values yielded (before serialization), and whether an
exception escaped the generator mid-iteration, ending the stream early. -/
structure ChunkOutput where
  chunks : List PyVal
  aborted : Bool

/-- The `generate_response` generator of the NDJSON branch: blank lines are
skipped; each remaining line is parsed and executed, and the response is
yielded.  A `json.loads` failure, or an exception escaping
`_execute_request`, is not caught: it propagates to the consumer and no
further line is processed. -/
def generateResponse (reg : List (String × Method)) : List Line → ChunkOutput
  | [] => ⟨[], false⟩
  | .blank :: rest => generateResponse reg rest
  | .malformed :: _ => ⟨[], true⟩
  | .parsed j :: rest =>
    match executeRequest reg j with
    | .error _ => ⟨[], true⟩
    | .ok resp =>
      let o := generateResponse reg rest
      ⟨resp :: o.chunks, o.aborted⟩

/-- `JsonRpcRegistry.handle_request`: single-JSON mode parses the whole body,
executes once, and chooses "500 Internal Server Error" exactly when the
response carries an `error` key, else "200 OK" (an uncaught parse or
execution exception escapes `handle_request` itself, `.error` here); NDJSON
mode returns the generator with status "200 OK" unconditionally; every other
content type returns an empty body with "415 Unsupported Media Type". -/
def handle_request (reg : List (String × Method)) (input : StreamInput)
    (mimetype : String) : Except String (ChunkOutput × String) :=
  if mimetype == "application/json" then
    match input.whole with
    | .error e => .error e
    | .ok payload =>
      match executeRequest reg payload with
      | .error e => .error e
      | .ok resp =>
        match pyContains resp "error" with
        | .error e => .error e
        | .ok hasErr =>
          .ok (⟨[resp], false⟩,
               if hasErr then "500 Internal Server Error" else "200 OK")
  else if mimetype == "application/x-ndjson" then
    .ok (generateResponse reg input.lines, "200 OK")
  else
    .ok (⟨[], false⟩, "415 Unsupported Media Type")

/-- Whether a response envelope carries a top-level `error` key. -/
def envHasError : PyVal → Bool
  | .dict kvs => (lookupStr kvs "error").isSome
  | _ => false

/-- Whether a response envelope carries a top-level `result` key. -/
def envHasResult : PyVal → Bool
  | .dict kvs => (lookupStr kvs "result").isSome
  | _ => false

/-- Whether a response envelope carries a top-level `id` key. -/
def envHasId : PyVal → Bool
  | .dict kvs => (lookupStr kvs "id").isSome
  | _ => false

/-- The value of a response envelope's `id` key, when present. -/
def envIdValue : PyVal → Option PyVal
  | .dict kvs => lookupStr kvs "id"
  | _ => Option.none

/-- The `error.code` of an error envelope, when present. -/
def respErrorCode (resp : PyVal) : Option Int :=
  match resp with
  | .dict kvs =>
    match lookupStr kvs "error" with
    | some (.dict ekvs) =>
      match lookupStr ekvs "code" with
      | some (.int c) => some c
      | _ => Option.none
    | _ => Option.none
  | _ => Option.none

/-- Python `+` restricted to the operand kinds a service method in this
development can see: ints add (a Python bool is an int subtype and counts as
0 or 1), strings and lists concatenate, and any other combination raises
TypeError. -/
def pyAdd : PyVal → PyVal → Except String PyVal
  | .int x, .int y => .ok (.int (x + y))
  | .int x, .bool b => .ok (.int (x + (cond b 1 0)))
  | .bool a, .int y => .ok (.int ((cond a 1 0) + y))
  | .bool a, .bool b => .ok (.int ((cond a 1 0) + (cond b 1 0)))
  | .str s, .str t => .ok (.str (s ++ t))
  | .list xs, .list ys => .ok (.list (xs ++ ys))
  | _, _ => .error "TypeError: unsupported operand types for +"

/-- The body of `mathService.add(a, b)` from the spec's scenarios: `a + b` on
the two bound arguments. -/
def addImpl : List PyVal → Except String PyVal
  | [a, b] => pyAdd a b
  | _ => .error "TypeError: add takes two arguments"

/-- The `add(a: int, b: int) -> int` method of the scenario service. -/
def addMethod : Method :=
  ⟨"add", [("a", Ty.intTy), ("b", Ty.intTy)], addImpl⟩

/-- The dataclass of the module's usage example:
`UserData(username: str, lastlogin: datetime.datetime)`. -/
def userDataTy : Ty :=
  Ty.recordTy "UserData" [("username", Ty.strTy), ("lastlogin", Ty.datetimeTy)]

/-- A two-scalar-field dataclass `Point(x: int, y: int)`, for exercising
record decoding with a missing scalar field. -/
def pointTy : Ty :=
  Ty.recordTy "Point" [("x", Ty.intTy), ("y", Ty.intTy)]

/-- A service method `save(data: UserData) -> None`, returning Python None. -/
def saveUserMethod : Method :=
  ⟨"save", [("data", userDataTy)], fun _ => .ok PyVal.none⟩

/-- A service method `savePoint(p: Point) -> None`, returning Python None. -/
def savePointMethod : Method :=
  ⟨"savePoint", [("p", pointTy)], fun _ => .ok PyVal.none⟩

/-- The flattened method table after registering the scenario services:
`mathService` with `add`, plus record-taking methods used by the record
claims. -/
def mathRegistry : List (String × Method) :=
  [("mathService.add", addMethod),
   ("userService.save", saveUserMethod),
   ("pointService.savePoint", savePointMethod)]

/-- A successful `parse_args_list` returns as many decoded arguments as the
method declares parameters (the arity guard passed and the comprehension is
length-preserving). -/
theorem convertZipped_length :
    ∀ (l : List (PyVal × Ty)) (out : List PyVal),
      convertZipped l = .ok out → out.length = l.length := by
  intro l
  induction l with
  | nil => intro out h; simp [convertZipped] at h; simp [← h]
  | cons p rest ih =>
    intro out h
    obtain ⟨v, t⟩ := p
    simp only [convertZipped] at h
    cases hc : convert_arg v t with
    | error e => rw [hc] at h; simp at h
    | ok v' =>
      rw [hc] at h
      cases hr : convertZipped rest with
      | error e => rw [hr] at h; simp at h
      | ok vs =>
        rw [hr] at h
        simp at h
        simpa [← h] using ih vs hr

theorem parse_args_list_ok_length (m : Method) (args decoded : List PyVal)
    (h : m.parse_args_list args = .ok decoded) :
    decoded.length = m.params.length := by
  unfold Method.parse_args_list at h
  split at h
  · rename_i hlen
    have := convertZipped_length _ _ h
    simpa [List.length_zip, hlen] using this
  · simp at h

/-- On a dict payload carrying the four protocol keys with `jsonrpc` equal to
"2.0", `_execute_request` passes validation and proceeds to dispatch on the
extracted method, params and id values. -/
theorem executeRequest_dict (reg : List (String × Method))
    (kvs : List (PyVal × PyVal)) (mv pv idv : PyVal)
    (h1 : lookupStr kvs "jsonrpc" = some (.str "2.0"))
    (h2 : lookupStr kvs "method" = some mv)
    (h3 : lookupStr kvs "params" = some pv)
    (h4 : lookupStr kvs "id" = some idv) :
    executeRequest reg (.dict kvs) = dispatchStep reg mv pv idv := by
  simp [executeRequest, validatePayload, checkVersion, pyContains, pyGetItem,
        h1, h2, h3, h4]

/-- Dispatch on an unregistered method key: -32601 with the id handed to
`_make_error`. -/
theorem dispatchStep_no_method (reg : List (String × Method))
    (mv pv idv : PyVal) (h : registryGet reg mv = .ok Option.none) :
    dispatchStep reg mv pv idv
      = .ok (make_error (-32601) "Method not found" idv) := by
  simp [dispatchStep, h]

/-- Dispatch when positional binding and the call both succeed: the Result
envelope on the encoded return value. -/
theorem dispatchStep_list_ok (reg : List (String × Method)) (mv idv r : PyVal)
    (m : Method) (xs args : List PyVal)
    (hg : registryGet reg mv = .ok (some m))
    (hp : m.parse_args_list xs = .ok args)
    (hc : m.callPositional args = .ok r) :
    dispatchStep reg mv (.list xs) idv
      = .ok (successResponse (toDict r) idv) := by
  simp [dispatchStep, hg, hp, hc]

/-- Dispatch when positional binding raises: -32602 with the exception's
message. -/
theorem dispatchStep_list_err (reg : List (String × Method)) (mv idv : PyVal)
    (m : Method) (xs : List PyVal) (e : String)
    (hg : registryGet reg mv = .ok (some m))
    (hp : m.parse_args_list xs = .error e) :
    dispatchStep reg mv (.list xs) idv
      = .ok (make_error (-32602) e idv) := by
  simp [dispatchStep, hg, hp]

/-- Dispatch when named binding succeeds but the call raises: -32000 with
the exception's message. -/
theorem dispatchStep_dict_call_err (reg : List (String × Method))
    (mv idv : PyVal) (m : Method) (kvs : List (PyVal × PyVal))
    (kw : List (String × PyVal)) (e : String)
    (hg : registryGet reg mv = .ok (some m))
    (hp : m.parse_args_dict kvs = .ok kw)
    (hc : m.callKwargs kw = .error e) :
    dispatchStep reg mv (.dict kvs) idv
      = .ok (make_error (-32000) e idv) := by
  simp [dispatchStep, hg, hp, hc]

/-- Method-table lookup of `mathService.add`. -/
theorem registryGet_add :
    registryGet mathRegistry (.str "mathService.add")
      = .ok (some addMethod) := by
  simp [registryGet, mathRegistry, assocFind]

/-- Method-table miss for the unregistered `mathService.nope`. -/
theorem registryGet_nope :
    registryGet mathRegistry (.str "mathService.nope")
      = .ok Option.none := by
  simp [registryGet, mathRegistry, assocFind]

/-- Method-table lookup of `pointService.savePoint`. -/
theorem registryGet_savePoint :
    registryGet mathRegistry (.str "pointService.savePoint")
      = .ok (some savePointMethod) := by
  simp [registryGet, mathRegistry, assocFind]

/-- Positional binding of `add` on `[2, 3]`: int arguments pass through. -/
theorem addParse23 :
    addMethod.parse_args_list [.int 2, .int 3] = .ok [.int 2, .int 3] := by
  simp [addMethod, Method.parse_args_list, convertZipped, convert_arg]

/-- Positional binding of `add` on `[1, 1]`. -/
theorem addParse11 :
    addMethod.parse_args_list [.int 1, .int 1] = .ok [.int 1, .int 1] := by
  simp [addMethod, Method.parse_args_list, convertZipped, convert_arg]

/-- Calling `add(2, 3)`. -/
theorem addCall23 :
    addMethod.callPositional [.int 2, .int 3] = .ok (.int 5) := by
  simp [addMethod, Method.callPositional, addImpl, pyAdd]

/-- Calling `add(1, 1)`. -/
theorem addCall11 :
    addMethod.callPositional [.int 1, .int 1] = .ok (.int 2) := by
  simp [addMethod, Method.callPositional, addImpl, pyAdd]

/-- Named binding of `add` on `{"a": 2}`: only the supplied name is
converted; nothing checks for the missing `b`. -/
theorem addKwParse :
    addMethod.parse_args_dict [(.str "a", .int 2)] = .ok [("a", .int 2)] := by
  simp [addMethod, Method.parse_args_dict, assocFind, convert_arg]

/-- Calling `add(a=2)` with the required `b` unsupplied raises TypeError. -/
theorem addKwCall :
    addMethod.callKwargs [("a", .int 2)]
      = .error "TypeError: add missing a required argument" := by
  simp [addMethod, Method.callKwargs, assocFind]

/-- Decoding the wire mapping that lacks the declared scalar field `y` of
`Point(x: int, y: int)`: `arg.get` substitutes None, the scalar conversion
passes it through, and the instance is built with `y = None`. -/
theorem pointDecode_eval :
    convert_arg (.dict [(.str "x", .int 1)]) pointTy
      = .ok (.record "Point" [("x", .int 1), ("y", PyVal.none)]) := by
  simp [pointTy, convert_arg, convertFields, lookupStr]

/-- Positional binding of a single-parameter method: when the one declared
parameter's type decodes the one supplied argument, binding returns the
decoded singleton. -/
theorem parse_args_list_single (m : Method) (pname : String) (t : Ty)
    (v r : PyVal) (hp : m.params = [(pname, t)])
    (hc : convert_arg v t = .ok r) :
    m.parse_args_list [v] = .ok [r] := by
  simp [Method.parse_args_list, hp, convertZipped, hc]

/-- Positional binding of `savePoint` on the `y`-less mapping succeeds. -/
theorem pointParse :
    savePointMethod.parse_args_list [.dict [(.str "x", .int 1)]]
      = .ok [.record "Point" [("x", .int 1), ("y", PyVal.none)]] :=
  parse_args_list_single savePointMethod "p" pointTy
    (.dict [(.str "x", .int 1)])
    (.record "Point" [("x", .int 1), ("y", PyVal.none)])
    rfl pointDecode_eval

/-- Calling `savePoint` on the partially-populated record returns None. -/
theorem pointCall :
    savePointMethod.callPositional
      [.record "Point" [("x", .int 1), ("y", PyVal.none)]]
      = .ok PyVal.none := by
  simp [savePointMethod, Method.callPositional]

/-- The scenario request `mathService.add [2, 3]`, any id: Result 5. -/
theorem execAdd23_param (idv : PyVal) :
    executeRequest mathRegistry
      (mkReq (.str "mathService.add") (.list [.int 2, .int 3]) idv)
      = .ok (successResponse (.int 5) idv) := by
  have hstep := executeRequest_dict mathRegistry
    [(.str "jsonrpc", .str "2.0"), (.str "method", .str "mathService.add"),
     (.str "params", .list [.int 2, .int 3]), (.str "id", idv)]
    (.str "mathService.add") (.list [.int 2, .int 3]) idv
    (by simp [lookupStr]) (by simp [lookupStr])
    (by simp [lookupStr]) (by simp [lookupStr])
  rw [mkReq, hstep, dispatchStep_list_ok mathRegistry
        (.str "mathService.add") idv (.int 5) addMethod [.int 2, .int 3]
        [.int 2, .int 3] registryGet_add addParse23 addCall23]
  simp [toDict]

/-- The request `mathService.add [1, 1]`, any id: Result 2. -/
theorem execAdd11_param (idv : PyVal) :
    executeRequest mathRegistry
      (mkReq (.str "mathService.add") (.list [.int 1, .int 1]) idv)
      = .ok (successResponse (.int 2) idv) := by
  have hstep := executeRequest_dict mathRegistry
    [(.str "jsonrpc", .str "2.0"), (.str "method", .str "mathService.add"),
     (.str "params", .list [.int 1, .int 1]), (.str "id", idv)]
    (.str "mathService.add") (.list [.int 1, .int 1]) idv
    (by simp [lookupStr]) (by simp [lookupStr])
    (by simp [lookupStr]) (by simp [lookupStr])
  rw [mkReq, hstep, dispatchStep_list_ok mathRegistry
        (.str "mathService.add") idv (.int 2) addMethod [.int 1, .int 1]
        [.int 1, .int 1] registryGet_add addParse11 addCall11]
  simp [toDict]

/-- A request for the unregistered `mathService.nope`, any params and id. -/
theorem execNope_param (pv idv : PyVal) :
    executeRequest mathRegistry
      (mkReq (.str "mathService.nope") pv idv)
      = .ok (make_error (-32601) "Method not found" idv) := by
  have hstep := executeRequest_dict mathRegistry
    [(.str "jsonrpc", .str "2.0"), (.str "method", .str "mathService.nope"),
     (.str "params", pv), (.str "id", idv)]
    (.str "mathService.nope") pv idv
    (by simp [lookupStr]) (by simp [lookupStr])
    (by simp [lookupStr]) (by simp [lookupStr])
  rw [mkReq, hstep, dispatchStep_no_method mathRegistry
        (.str "mathService.nope") pv idv registryGet_nope]

/-- A `mathService.add` request whose params is a string: -32602. -/
theorem execAddStrParams_param (s : String) (idv : PyVal) :
    executeRequest mathRegistry
      (mkReq (.str "mathService.add") (.str s) idv)
      = .ok (make_error (-32602) "Invalid params" idv) := by
  have hstep := executeRequest_dict mathRegistry
    [(.str "jsonrpc", .str "2.0"), (.str "method", .str "mathService.add"),
     (.str "params", .str s), (.str "id", idv)]
    (.str "mathService.add") (.str s) idv
    (by simp [lookupStr]) (by simp [lookupStr])
    (by simp [lookupStr]) (by simp [lookupStr])
  rw [mkReq, hstep]
  simp [dispatchStep, registryGet_add]

/-- The named-binding request `mathService.add {"a": 2}` with `b` missing:
binding succeeds, the call raises, -32000. -/
theorem execKwMissing_param (idv : PyVal) :
    executeRequest mathRegistry
      (mkReq (.str "mathService.add") (.dict [(.str "a", .int 2)]) idv)
      = .ok (make_error (-32000)
          "TypeError: add missing a required argument" idv) := by
  have hstep := executeRequest_dict mathRegistry
    [(.str "jsonrpc", .str "2.0"), (.str "method", .str "mathService.add"),
     (.str "params", .dict [(.str "a", .int 2)]), (.str "id", idv)]
    (.str "mathService.add") (.dict [(.str "a", .int 2)]) idv
    (by simp [lookupStr]) (by simp [lookupStr])
    (by simp [lookupStr]) (by simp [lookupStr])
  rw [mkReq, hstep, dispatchStep_dict_call_err mathRegistry
        (.str "mathService.add") idv addMethod [(.str "a", .int 2)]
        [("a", .int 2)] "TypeError: add missing a required argument"
        registryGet_add addKwParse addKwCall]

/-- The `pointService.savePoint` request carrying the `y`-less mapping:
success, result null. -/
theorem execSavePoint_eval :
    executeRequest mathRegistry
      (mkReq (.str "pointService.savePoint")
        (.list [.dict [(.str "x", .int 1)]]) (.int 1))
      = .ok (successResponse PyVal.none (.int 1)) := by
  have hstep := executeRequest_dict mathRegistry
    [(.str "jsonrpc", .str "2.0"),
     (.str "method", .str "pointService.savePoint"),
     (.str "params", .list [.dict [(.str "x", .int 1)]]),
     (.str "id", .int 1)]
    (.str "pointService.savePoint") (.list [.dict [(.str "x", .int 1)]])
    (.int 1)
    (by simp [lookupStr]) (by simp [lookupStr])
    (by simp [lookupStr]) (by simp [lookupStr])
  rw [mkReq, hstep, dispatchStep_list_ok mathRegistry
        (.str "pointService.savePoint") (.int 1) PyVal.none savePointMethod
        [.dict [(.str "x", .int 1)]]
        [.record "Point" [("x", .int 1), ("y", PyVal.none)]]
        registryGet_savePoint pointParse pointCall]
  simp [toDict]

/-- A payload with `jsonrpc` "2.0" but no `method` key: -32600, no id. -/
theorem execMissingMethod_eval :
    executeRequest mathRegistry (.dict [(.str "jsonrpc", .str "2.0")])
      = .ok (make_error (-32600) "Method not specified" PyVal.none) := by
  simp [executeRequest, validatePayload, checkVersion, pyContains,
        pyGetItem, lookupStr]

/-- C1: for every registered method and every request whose params is an
ordered sequence that the declared parameter types decode (which in
particular forces the declared arity) and on which the method returns,
`_execute_request` produces the Result envelope whose `result` is the
`to_dict`-encoding of the method's return value on the decoded arguments,
with the request id echoed. -/
theorem execute_positional_result (reg : List (String × Method)) (k : String)
    (m : Method) (args : List PyVal) (idv : PyVal) (decoded : List PyVal)
    (r : PyVal)
    (hm : assocFind reg k = some m)
    (hd : m.parse_args_list args = .ok decoded)
    (hr : m.impl decoded = .ok r) :
    executeRequest reg (mkReq (.str k) (.list args) idv)
      = .ok (successResponse (toDict r) idv) := by
  have hlen := parse_args_list_ok_length m args decoded hd
  have hstep := executeRequest_dict reg
    [(.str "jsonrpc", .str "2.0"), (.str "method", .str k),
     (.str "params", .list args), (.str "id", idv)]
    (.str k) (.list args) idv
    (by simp [lookupStr]) (by simp [lookupStr])
    (by simp [lookupStr]) (by simp [lookupStr])
  rw [mkReq, hstep]
  simp [dispatchStep, registryGet, hm, hd, Method.callPositional, hlen, hr]

/-- Witness for C1: the spec's scenario — `mathService.add` applied to
`[2, 3]` with id 1 yields the Result envelope with result 5 and id 1. -/
theorem execute_positional_result_scenario :
    executeRequest mathRegistry
      (mkReq (.str "mathService.add") (.list [.int 2, .int 3]) (.int 1))
      = .ok (successResponse (.int 5) (.int 1)) := by
  have h := execute_positional_result mathRegistry "mathService.add" addMethod
    [.int 2, .int 3] (.int 1) [.int 2, .int 3] (.int 5)
    (by simp [mathRegistry, assocFind])
    addParse23
    (by simp [addMethod, addImpl, pyAdd])
  simpa [toDict] using h

/-- C4: a request object missing any of the four protocol keys, or whose
`jsonrpc` value is not the literal "2.0", fails the validation asserts and
yields an Error envelope with code -32600 and no id field (`_make_error` is
called without an id there). -/
theorem execute_invalid_request_32600 (reg : List (String × Method))
    (kvs : List (PyVal × PyVal))
    (h : lookupStr kvs "jsonrpc" ≠ some (.str "2.0")
       ∨ lookupStr kvs "method" = Option.none
       ∨ lookupStr kvs "params" = Option.none
       ∨ lookupStr kvs "id" = Option.none) :
    ∃ msg, executeRequest reg (.dict kvs)
      = .ok (make_error (-32600) msg PyVal.none) := by
  have hval : ∃ msg, validatePayload (.dict kvs) = .ok (some msg) := by
    by_cases hj : lookupStr kvs "jsonrpc" = some (.str "2.0")
    · rcases h with h | h | h | h
      · exact absurd hj h
      · exact ⟨"Method not specified",
          by simp [validatePayload, checkVersion, pyContains, pyGetItem, hj, h]⟩
      · cases hm : lookupStr kvs "method" with
        | none => exact ⟨"Method not specified",
            by simp [validatePayload, checkVersion, pyContains, pyGetItem, hj, hm]⟩
        | some mv => exact ⟨"Params not specified",
            by simp [validatePayload, checkVersion, pyContains, pyGetItem, hj, hm, h]⟩
      · cases hm : lookupStr kvs "method" with
        | none => exact ⟨"Method not specified",
            by simp [validatePayload, checkVersion, pyContains, pyGetItem, hj, hm]⟩
        | some mv =>
          cases hp : lookupStr kvs "params" with
          | none => exact ⟨"Params not specified",
              by simp [validatePayload, checkVersion, pyContains, pyGetItem, hj, hm, hp]⟩
          | some pv => exact ⟨"ID not specified",
              by simp [validatePayload, checkVersion, pyContains, pyGetItem, hj, hm, hp, h]⟩
    · refine ⟨"Invalid JSON-RPC version", ?_⟩
      cases hv : lookupStr kvs "jsonrpc" with
      | none => simp [validatePayload, checkVersion, pyContains, pyGetItem, hv]
      | some v =>
        have hvne : v ≠ .str "2.0" := fun heq => hj (by rw [hv, heq])
        cases v with
        | str s =>
          have hs : (s == "2.0") = false := by
            cases hsb : s == "2.0"
            · rfl
            · exact absurd (congrArg PyVal.str (eq_of_beq hsb)) hvne
          simp [validatePayload, checkVersion, pyContains, pyGetItem, hv, hs]
        | none => simp [validatePayload, checkVersion, pyContains, pyGetItem, hv]
        | bool b => simp [validatePayload, checkVersion, pyContains, pyGetItem, hv]
        | int n => simp [validatePayload, checkVersion, pyContains, pyGetItem, hv]
        | list xs => simp [validatePayload, checkVersion, pyContains, pyGetItem, hv]
        | tuple xs => simp [validatePayload, checkVersion, pyContains, pyGetItem, hv]
        | dict d => simp [validatePayload, checkVersion, pyContains, pyGetItem, hv]
        | record c f => simp [validatePayload, checkVersion, pyContains, pyGetItem, hv]
        | datetime i => simp [validatePayload, checkVersion, pyContains, pyGetItem, hv]
  obtain ⟨msg, hvmsg⟩ := hval
  exact ⟨msg, by simp [executeRequest, hvmsg]⟩

/-- Witness for C4: a request carrying only `jsonrpc` and `method` (params
and id absent) is answered with -32600 and no id. -/
theorem execute_invalid_request_32600_witness :
    (lookupStr [(PyVal.str "jsonrpc", PyVal.str "2.0"),
                (PyVal.str "method", PyVal.str "mathService.add")]
       "params" = Option.none) ∧
    ∃ msg, executeRequest mathRegistry
      (.dict [(PyVal.str "jsonrpc", PyVal.str "2.0"),
              (PyVal.str "method", PyVal.str "mathService.add")])
      = .ok (make_error (-32600) msg PyVal.none) := by
  constructor
  · simp [lookupStr]
  · exact execute_invalid_request_32600 mathRegistry _
      (Or.inr (Or.inr (Or.inl (by simp [lookupStr]))))

/-- C5 counterexample: a well-formed request with a null id for an
unregistered method yields the -32601 Error envelope with no id field at
all, not an echoed null id — the claim's unconditional "id echoed" fails. -/
theorem method_not_found_null_id_omitted :
    executeRequest mathRegistry
      (mkReq (.str "mathService.nope") (.list []) PyVal.none)
      = .ok (make_error (-32601) "Method not found" PyVal.none)
    ∧ envHasId (make_error (-32601) "Method not found" PyVal.none) = false := by
  exact ⟨execNope_param (.list []) PyVal.none,
         by simp [envHasId, make_error, isNone, lookupStr]⟩

/-- C5 as amended: a well-formed request for an unregistered method yields
an Error envelope with code -32601, built by `_make_error` on the request
id — so the id is echoed exactly when it is not null, and omitted when the
request id is null. -/
theorem execute_method_not_found_32601 (reg : List (String × Method))
    (k : String) (pv idv : PyVal)
    (h : assocFind reg k = Option.none) :
    executeRequest reg (mkReq (.str k) pv idv)
      = .ok (make_error (-32601) "Method not found" idv) := by
  have hstep := executeRequest_dict reg
    [(.str "jsonrpc", .str "2.0"), (.str "method", .str k),
     (.str "params", pv), (.str "id", idv)]
    (.str k) pv idv
    (by simp [lookupStr]) (by simp [lookupStr])
    (by simp [lookupStr]) (by simp [lookupStr])
  rw [mkReq, hstep]
  simp [dispatchStep, registryGet, h]

/-- Witness for C5 (the spec's `mathService.subtract` scenario): an
unregistered method with the non-null id 7 is answered with -32601 and the
id echoed. -/
theorem execute_method_not_found_32601_witness :
    executeRequest mathRegistry
      (mkReq (.str "mathService.subtract") (.list []) (.int 7))
      = .ok (make_error (-32601) "Method not found" (.int 7))
    ∧ envIdValue (make_error (-32601) "Method not found" (.int 7))
      = some (.int 7) := by
  constructor
  · exact execute_method_not_found_32601 mathRegistry "mathService.subtract"
      (.list []) (.int 7) (by simp [mathRegistry, assocFind])
  · simp [envIdValue, make_error, isNone, lookupStr]

/-- Params shapes on which binding is rejected, per the claim: params neither
a list nor a dict, or a list on which `parse_args_list` raises (arity
mismatch or a decode failure). -/
def bindRejects (m : Method) : PyVal → Prop
  | .dict _ => False
  | .list xs => ∃ e, m.parse_args_list xs = Except.error e
  | _ => True

/-- C6 counterexample: a well-formed request with params of an invalid shape
and a null id yields the -32602 Error envelope with no id field — the
claim's unconditional "id echoed" fails on a null id. -/
theorem invalid_params_null_id_omitted :
    executeRequest mathRegistry
      (mkReq (.str "mathService.add") (.str "oops") PyVal.none)
      = .ok (make_error (-32602) "Invalid params" PyVal.none)
    ∧ envHasId (make_error (-32602) "Invalid params" PyVal.none) = false := by
  exact ⟨execAddStrParams_param "oops" PyVal.none,
         by simp [envHasId, make_error, isNone, lookupStr]⟩

/-- C6 as amended: for a well-formed request resolving to a registered
method, params that are neither a list nor a dict, or positional binding
that raises (arity mismatch or decode failure), yield an Error envelope with
code -32602, built by `_make_error` on the request id — echoed when
non-null, omitted when null. -/
theorem execute_invalid_params_32602 (reg : List (String × Method))
    (k : String) (m : Method) (pv idv : PyVal)
    (hm : assocFind reg k = some m)
    (h : bindRejects m pv) :
    ∃ msg, executeRequest reg (mkReq (.str k) pv idv)
      = .ok (make_error (-32602) msg idv) := by
  have hstep := executeRequest_dict reg
    [(.str "jsonrpc", .str "2.0"), (.str "method", .str k),
     (.str "params", pv), (.str "id", idv)]
    (.str k) pv idv
    (by simp [lookupStr]) (by simp [lookupStr])
    (by simp [lookupStr]) (by simp [lookupStr])
  cases pv with
  | dict kvs => simp [bindRejects] at h
  | list xs =>
    simp only [bindRejects] at h
    obtain ⟨e, he⟩ := h
    exact ⟨e, by rw [mkReq, hstep]; simp [dispatchStep, registryGet, hm, he]⟩
  | none => exact ⟨"Invalid params",
      by rw [mkReq, hstep]; simp [dispatchStep, registryGet, hm]⟩
  | bool b => exact ⟨"Invalid params",
      by rw [mkReq, hstep]; simp [dispatchStep, registryGet, hm]⟩
  | int n => exact ⟨"Invalid params",
      by rw [mkReq, hstep]; simp [dispatchStep, registryGet, hm]⟩
  | str s => exact ⟨"Invalid params",
      by rw [mkReq, hstep]; simp [dispatchStep, registryGet, hm]⟩
  | tuple xs => exact ⟨"Invalid params",
      by rw [mkReq, hstep]; simp [dispatchStep, registryGet, hm]⟩
  | record c f => exact ⟨"Invalid params",
      by rw [mkReq, hstep]; simp [dispatchStep, registryGet, hm]⟩
  | datetime i => exact ⟨"Invalid params",
      by rw [mkReq, hstep]; simp [dispatchStep, registryGet, hm]⟩

/-- Witness for C6: an arity mismatch (one argument to the two-parameter
`add`) with the non-null id 9 yields -32602 with the id echoed. -/
theorem execute_invalid_params_32602_witness :
    (∃ msg, executeRequest mathRegistry
        (mkReq (.str "mathService.add") (.list [.int 2]) (.int 9))
      = .ok (make_error (-32602) msg (.int 9))) := by
  exact execute_invalid_params_32602 mathRegistry "mathService.add" addMethod
    (.list [.int 2]) (.int 9)
    (by simp [mathRegistry, assocFind])
    (by exact ⟨"Error parsing arguments for method add",
          by simp [addMethod, Method.parse_args_list]⟩)

/-- C7 counterexample: the scenario request binding `add` by name with only
`a` supplied is answered with error code -32000, not the claimed -32602 —
`parse_args_dict` converts only the supplied names and never checks for
missing parameters, so the failure is the TypeError raised by the call
itself, caught by the invoke stage. -/
theorem named_binding_missing_param_code :
    executeRequest mathRegistry
      (mkReq (.str "mathService.add") (.dict [(.str "a", .int 2)]) (.int 1))
      = .ok (make_error (-32000) "TypeError: add missing a required argument"
              (.int 1))
    ∧ respErrorCode (make_error (-32000)
        "TypeError: add missing a required argument" (.int 1))
      = some (-32000)
    ∧ (-32000 : Int) ≠ (-32602 : Int) := by
  exact ⟨execKwMissing_param (.int 1),
         by simp [respErrorCode, make_error, isNone, lookupStr],
         by norm_num⟩

/-- C7 as amended: the request with named params lacking the required `b`
yields an Error envelope with code -32000 (Server Error) and id 1 — the
missing parameter is detected at invocation, not during binding, because
named binding passes absent parameters through and lets the call fail. -/
theorem named_binding_missing_param_32000 :
    executeRequest mathRegistry
      (mkReq (.str "mathService.add") (.dict [(.str "a", .int 2)]) (.int 1))
      = .ok (make_error (-32000) "TypeError: add missing a required argument"
              (.int 1))
    ∧ envIdValue (make_error (-32000)
        "TypeError: add missing a required argument" (.int 1))
      = some (.int 1) := by
  exact ⟨execKwMissing_param (.int 1),
         by simp [envIdValue, make_error, isNone, lookupStr]⟩

/-- C8 counterexample: decoding a wire mapping that lacks the declared
scalar field `y` of `Point(x: int, y: int)` does not fail — it builds the
instance with `y = None` — and even a full request sending that mapping
positionally is answered with a success envelope, not -32602. -/
theorem record_missing_scalar_field_succeeds :
    convert_arg (.dict [(.str "x", .int 1)]) pointTy
      = .ok (.record "Point" [("x", .int 1), ("y", PyVal.none)])
    ∧ executeRequest mathRegistry
        (mkReq (.str "pointService.savePoint")
          (.list [.dict [(.str "x", .int 1)]]) (.int 1))
      = .ok (successResponse PyVal.none (.int 1)) := by
  exact ⟨pointDecode_eval, execSavePoint_eval⟩

/-- Decoding a record whose declared fields include a datetime-typed field
that is absent from the wire mapping fails: the absent field reads as None
and `fromisoformat` rejects it. -/
theorem convertFields_missing_datetime (kvs : List (PyVal × PyVal)) :
    ∀ (fields : List (String × Ty)) (fname : String),
      (fname, Ty.datetimeTy) ∈ fields →
      lookupStr kvs fname = Option.none →
      ∃ e, convertFields kvs fields = .error e := by
  intro fields
  induction fields with
  | nil => intro fname h; simp at h
  | cons p rest ih =>
    intro fname hmem hmiss
    obtain ⟨n, t⟩ := p
    rcases List.mem_cons.mp hmem with heq | hrest
    · have hn : n = fname := (Prod.mk.injEq .. ▸ heq.symm).1
      have ht : t = Ty.datetimeTy := (Prod.mk.injEq .. ▸ heq.symm).2
      subst hn; subst ht
      refine ⟨"TypeError: fromisoformat argument must be str", ?_⟩
      simp [convertFields, hmiss, convert_arg]
    · obtain ⟨e, he⟩ := ih fname hrest hmiss
      cases hc : convert_arg ((lookupStr kvs n).getD .none) t with
      | error e2 => exact ⟨e2, by simp [convertFields, hc]⟩
      | ok v => exact ⟨e, by simp [convertFields, hc, he]⟩

/-- C8 as amended: a wire mapping lacking a declared *adapter-typed*
(datetime) field fails to decode against the record type — the absent field
reads as None and the adapter raises — and during positional binding of a
method declaring that record parameter the failure surfaces as an Error
envelope with code -32602.  (For absent scalar-typed fields no error occurs;
see the counterexample.) -/
theorem record_missing_adapter_field_errors (name : String)
    (fields : List (String × Ty)) (kvs : List (PyVal × PyVal)) (fname : String)
    (hmem : (fname, Ty.datetimeTy) ∈ fields)
    (hmiss : lookupStr kvs fname = Option.none) :
    (∃ e, convert_arg (.dict kvs) (.recordTy name fields) = .error e) ∧
    (∀ (reg : List (String × Method)) (k pname : String) (m : Method)
       (idv : PyVal),
       assocFind reg k = some m →
       m.params = [(pname, Ty.recordTy name fields)] →
       ∃ msg, executeRequest reg (mkReq (.str k) (.list [.dict kvs]) idv)
         = .ok (make_error (-32602) msg idv)) := by
  obtain ⟨e, he⟩ := convertFields_missing_datetime kvs fields fname hmem hmiss
  constructor
  · exact ⟨e, by simp [convert_arg, he]⟩
  · intro reg k pname m idv hm hp
    have hstep := executeRequest_dict reg
      [(.str "jsonrpc", .str "2.0"), (.str "method", .str k),
       (.str "params", .list [.dict kvs]), (.str "id", idv)]
      (.str k) (.list [.dict kvs]) idv
      (by simp [lookupStr]) (by simp [lookupStr])
      (by simp [lookupStr]) (by simp [lookupStr])
    have hg : registryGet reg (.str k) = .ok (some m) := by
      simp [registryGet, hm]
    have hparse : m.parse_args_list [.dict kvs] = .error e := by
      simp [Method.parse_args_list, hp, convertZipped, convert_arg, he]
    refine ⟨e, ?_⟩
    rw [mkReq, hstep, dispatchStep_list_err reg (.str k) idv m
          [.dict kvs] e hg hparse]

/-- Witness for C8: the `UserData` record of the module's usage example with
its datetime field `lastlogin` absent — decoding fails, and the request to
`userService.save` carrying that mapping is answered with -32602, id
echoed. -/
theorem record_missing_adapter_field_errors_witness :
    (lookupStr [(.str "username", .str "Alice")] "lastlogin"
      = Option.none) ∧
    (∃ e, convert_arg (.dict [(.str "username", .str "Alice")]) userDataTy
      = .error e) ∧
    (∃ msg, executeRequest mathRegistry
        (mkReq (.str "userService.save")
          (.list [.dict [(.str "username", .str "Alice")]]) (.int 4))
      = .ok (make_error (-32602) msg (.int 4))) := by
  have h := record_missing_adapter_field_errors "UserData"
    [("username", Ty.strTy), ("lastlogin", Ty.datetimeTy)]
    [(.str "username", .str "Alice")] "lastlogin"
    (by simp) (by simp [lookupStr])
  refine ⟨by simp [lookupStr], ?_, ?_⟩
  · simpa [userDataTy] using h.1
  · exact h.2 mathRegistry "userService.save" "data" saveUserMethod (.int 4)
      (by simp [mathRegistry, assocFind])
      (by simp [saveUserMethod, userDataTy])

/-- A line the NDJSON generator can get past: blank (skipped), or parsing to
a value on which `_execute_request` returns a response rather than raising. -/
def lineOk (reg : List (String × Method)) : Line → Prop
  | .blank => True
  | .malformed => False
  | .parsed j => ∃ r, executeRequest reg j = Except.ok r

/-- The responses of an NDJSON batch, one per line that parses and executes,
in input order, blank lines skipped. -/
def collectResponses (reg : List (String × Method)) (lines : List Line) :
    List PyVal :=
  lines.filterMap fun l =>
    match l with
    | .parsed j => (executeRequest reg j).toOption
    | _ => Option.none

/-- C2 counterexample: a 3-line NDJSON batch whose middle line is malformed
(not valid JSON) yields only ONE response, not three — `json.loads` raises
inside the generator, which is not caught, so the stream aborts after the
first line's response and line 3 is never processed.  The status is still
"200 OK", returned before consumption. -/
theorem ndjson_malformed_line_aborts_batch :
    handle_request mathRegistry
      ⟨.error "ValueError: invalid JSON",
       [.parsed (mkReq (.str "mathService.add") (.list [.int 2, .int 3])
          (.int 1)),
        .malformed,
        .parsed (mkReq (.str "mathService.add") (.list [.int 1, .int 1])
          (.int 3))]⟩
      "application/x-ndjson"
      = .ok (⟨[successResponse (.int 5) (.int 1)], true⟩, "200 OK")
    ∧ [successResponse (.int 5) (.int 1)].length ≠ 3 := by
  have hgen : generateResponse mathRegistry
      [.parsed (mkReq (.str "mathService.add") (.list [.int 2, .int 3])
         (.int 1)),
       .malformed,
       .parsed (mkReq (.str "mathService.add") (.list [.int 1, .int 1])
         (.int 3))]
      = ⟨[successResponse (.int 5) (.int 1)], true⟩ := by
    simp [generateResponse, execAdd23_param]
  exact ⟨by simp [handle_request, hgen], by simp⟩

/-- C2 as amended: when every line of the batch is blank or parses to a
value on which `_execute_request` returns (its internal failures — invalid
envelope, unknown method, bad params, execution errors — are all caught and
returned as per-line Error responses), the handler yields exactly one
response per non-blank line, in input order, with blank lines skipped, does
not abort, and the status is "200 OK".  A line that is not valid JSON
instead raises out of the generator and aborts the rest of the batch (see
the counterexample). -/
theorem ndjson_parse_ok_isolation (reg : List (String × Method))
    (w : Except String PyVal) (lines : List Line)
    (h : ∀ l ∈ lines, lineOk reg l) :
    handle_request reg ⟨w, lines⟩ "application/x-ndjson"
      = .ok (⟨collectResponses reg lines, false⟩, "200 OK") := by
  have hgen : ∀ (ls : List Line), (∀ l ∈ ls, lineOk reg l) →
      generateResponse reg ls = ⟨collectResponses reg ls, false⟩ := by
    intro ls
    induction ls with
    | nil => intro _; simp [generateResponse, collectResponses]
    | cons l rest ih =>
      intro hall
      have hrest := ih fun x hx => hall x (List.mem_cons_of_mem _ hx)
      cases l with
      | blank =>
        simpa [generateResponse, collectResponses] using hrest
      | malformed =>
        exact absurd (hall _ (List.mem_cons_self _ _)) (by simp [lineOk])
      | parsed j =>
        obtain ⟨r, hr⟩ := hall _ (List.mem_cons_self _ _)
        simp [generateResponse, collectResponses, hr, hrest,
              List.filterMap_cons, Except.toOption]
  simp [handle_request, hgen lines h]

/-- Witness for C2: a 3-line batch whose middle line is valid JSON but an
invalid request yields 3 responses in order — line 1 and line 3 Result
envelopes, line 2 an Error envelope — with no abort and status "200 OK". -/
theorem ndjson_parse_ok_isolation_scenario :
    handle_request mathRegistry
      ⟨.error "ValueError: invalid JSON",
       [.parsed (mkReq (.str "mathService.add") (.list [.int 2, .int 3])
          (.int 1)),
        .parsed (.dict [(.str "jsonrpc", .str "2.0")]),
        .parsed (mkReq (.str "mathService.add") (.list [.int 1, .int 1])
          (.int 3))]⟩
      "application/x-ndjson"
      = .ok (⟨[successResponse (.int 5) (.int 1),
               make_error (-32600) "Method not specified" PyVal.none,
               successResponse (.int 2) (.int 3)], false⟩, "200 OK") := by
  have h := ndjson_parse_ok_isolation mathRegistry
    (.error "ValueError: invalid JSON")
    [.parsed (mkReq (.str "mathService.add") (.list [.int 2, .int 3])
       (.int 1)),
     .parsed (.dict [(.str "jsonrpc", .str "2.0")]),
     .parsed (mkReq (.str "mathService.add") (.list [.int 1, .int 1])
       (.int 3))]
    (by
      intro l hl
      simp at hl
      rcases hl with rfl | rfl | rfl
      · exact ⟨successResponse (.int 5) (.int 1), execAdd23_param (.int 1)⟩
      · exact ⟨make_error (-32600) "Method not specified" PyVal.none,
          execMissingMethod_eval⟩
      · exact ⟨successResponse (.int 2) (.int 3), execAdd11_param (.int 3)⟩)
  rw [h]
  simp only [collectResponses, List.filterMap_cons, List.filterMap_nil,
             execAdd23_param, execMissingMethod_eval, execAdd11_param,
             Except.toOption]

/-- C9: in single-JSON mode, when the body parses and execution returns a
response, the handler produces exactly that one chunk and the status is
"500 Internal Server Error" exactly when the response carries an `error`
key (client-caused errors included), else "200 OK"; any content type other
than the two supported ones produces empty output with "415 Unsupported
Media Type". -/
theorem handle_request_status (reg : List (String × Method)) :
    (∀ (lines : List Line) (payload resp : PyVal) (hasE : Bool),
       executeRequest reg payload = .ok resp →
       pyContains resp "error" = .ok hasE →
       handle_request reg ⟨.ok payload, lines⟩ "application/json"
         = .ok (⟨[resp], false⟩,
                if hasE then "500 Internal Server Error" else "200 OK")) ∧
    (∀ (w : Except String PyVal) (lines : List Line) (mt : String),
       mt ≠ "application/json" → mt ≠ "application/x-ndjson" →
       handle_request reg ⟨w, lines⟩ mt
         = .ok (⟨[], false⟩, "415 Unsupported Media Type")) := by
  constructor
  · intro lines payload resp hasE hex hc
    simp [handle_request, hex, hc]
  · intro w lines mt h1 h2
    simp [handle_request, h1, h2]

/-- Witness for C9: a successful request gives one chunk and "200 OK"; a
client-caused bad-params error gives one chunk and "500 Internal Server
Error"; a plain-text content type gives no chunks and "415 Unsupported
Media Type". -/
theorem handle_request_status_witness :
    (handle_request mathRegistry
      ⟨.ok (mkReq (.str "mathService.add") (.list [.int 2, .int 3]) (.int 1)),
       []⟩ "application/json"
      = .ok (⟨[successResponse (.int 5) (.int 1)], false⟩, "200 OK")) ∧
    (handle_request mathRegistry
      ⟨.ok (mkReq (.str "mathService.add") (.str "bad") (.int 1)), []⟩
      "application/json"
      = .ok (⟨[make_error (-32602) "Invalid params" (.int 1)], false⟩,
             "500 Internal Server Error")) ∧
    (handle_request mathRegistry ⟨.ok PyVal.none, []⟩ "text/plain"
      = .ok (⟨[], false⟩, "415 Unsupported Media Type")) := by
  refine ⟨?_, ?_, ?_⟩
  · have h := (handle_request_status mathRegistry).1 []
      (mkReq (.str "mathService.add") (.list [.int 2, .int 3]) (.int 1))
      (successResponse (.int 5) (.int 1)) false
      (execAdd23_param (.int 1))
      (by simp [pyContains, successResponse, lookupStr])
    simpa using h
  · have h := (handle_request_status mathRegistry).1 []
      (mkReq (.str "mathService.add") (.str "bad") (.int 1))
      (make_error (-32602) "Invalid params" (.int 1)) true
      (execAddStrParams_param "bad" (.int 1))
      (by simp [pyContains, make_error, isNone, lookupStr])
    simpa using h
  · exact (handle_request_status mathRegistry).2 (.ok PyVal.none) []
      "text/plain" (by simp) (by simp)

/-- Every `_make_error` envelope has the `error` key, no `result` key, and
the `id` key exactly when the id it was built on is not None. -/
theorem make_error_envelope (c : Int) (msg : String) (idv : PyVal) :
    envHasError (make_error c msg idv) = true ∧
    envHasResult (make_error c msg idv) = false ∧
    envHasId (make_error c msg idv) = !(isNone idv) := by
  cases idv <;>
    simp [make_error, envHasError, envHasResult, envHasId, isNone, lookupStr]

/-- Every success envelope has the `result` key, no `error` key, and carries
the request id verbatim under `id`. -/
theorem success_envelope (res idv : PyVal) :
    envHasError (successResponse res idv) = false ∧
    envHasResult (successResponse res idv) = true ∧
    envIdValue (successResponse res idv) = some idv := by
  simp [successResponse, envHasError, envHasResult, envIdValue, lookupStr]

/-- C10: for every request envelope, whatever response `_execute_request`
returns satisfies: an Error response carries the `id` key exactly when the
request id is non-null (a null id is omitted entirely by `_make_error`),
while a Result response always carries the `id` key with the request id —
null included. -/
theorem error_id_only_when_nonnull (reg : List (String × Method))
    (mv pv idv r : PyVal)
    (hex : executeRequest reg (mkReq mv pv idv) = .ok r) :
    (envHasError r = true → envHasId r = !(isNone idv)) ∧
    (envHasResult r = true → envIdValue r = some idv) := by
  have hstep := executeRequest_dict reg
    [(.str "jsonrpc", .str "2.0"), (.str "method", mv),
     (.str "params", pv), (.str "id", idv)]
    mv pv idv
    (by simp [lookupStr]) (by simp [lookupStr])
    (by simp [lookupStr]) (by simp [lookupStr])
  rw [mkReq, hstep] at hex
  unfold dispatchStep at hex
  cases hrg : registryGet reg mv with
  | error e => rw [hrg] at hex; simp at hex
  | ok om =>
    rw [hrg] at hex
    cases om with
    | none =>
      simp only [Except.ok.injEq] at hex
      subst hex
      obtain ⟨h1, h2, h3⟩ := make_error_envelope (-32601) "Method not found" idv
      exact ⟨fun _ => h3, fun hco => by rw [h2] at hco; exact absurd hco (by simp)⟩
    | some m =>
      cases pv with
      | dict kvs =>
        simp only at hex
        cases hpd : m.parse_args_dict kvs with
        | error e =>
          rw [hpd] at hex
          simp only [Except.ok.injEq] at hex
          subst hex
          obtain ⟨h1, h2, h3⟩ := make_error_envelope (-32602) e idv
          exact ⟨fun _ => h3, fun hco => by rw [h2] at hco; exact absurd hco (by simp)⟩
        | ok kw =>
          rw [hpd] at hex
          simp only at hex
          cases hck : m.callKwargs kw with
          | error e =>
            rw [hck] at hex
            simp only [Except.ok.injEq] at hex
            subst hex
            obtain ⟨h1, h2, h3⟩ := make_error_envelope (-32000) e idv
            exact ⟨fun _ => h3, fun hco => by rw [h2] at hco; exact absurd hco (by simp)⟩
          | ok rr =>
            rw [hck] at hex
            simp only [Except.ok.injEq] at hex
            subst hex
            obtain ⟨h1, h2, h3⟩ := success_envelope (toDict rr) idv
            exact ⟨fun hco => by rw [h1] at hco; exact absurd hco (by simp), fun _ => h3⟩
      | list xs =>
        simp only at hex
        cases hpl : m.parse_args_list xs with
        | error e =>
          rw [hpl] at hex
          simp only [Except.ok.injEq] at hex
          subst hex
          obtain ⟨h1, h2, h3⟩ := make_error_envelope (-32602) e idv
          exact ⟨fun _ => h3, fun hco => by rw [h2] at hco; exact absurd hco (by simp)⟩
        | ok args =>
          rw [hpl] at hex
          simp only at hex
          cases hcp : m.callPositional args with
          | error e =>
            rw [hcp] at hex
            simp only [Except.ok.injEq] at hex
            subst hex
            obtain ⟨h1, h2, h3⟩ := make_error_envelope (-32000) e idv
            exact ⟨fun _ => h3, fun hco => by rw [h2] at hco; exact absurd hco (by simp)⟩
          | ok rr =>
            rw [hcp] at hex
            simp only [Except.ok.injEq] at hex
            subst hex
            obtain ⟨h1, h2, h3⟩ := success_envelope (toDict rr) idv
            exact ⟨fun hco => by rw [h1] at hco; exact absurd hco (by simp), fun _ => h3⟩
      | none =>
        simp only [Except.ok.injEq] at hex
        subst hex
        obtain ⟨h1, h2, h3⟩ := make_error_envelope (-32602) "Invalid params" idv
        exact ⟨fun _ => h3, fun hco => by rw [h2] at hco; exact absurd hco (by simp)⟩
      | bool b =>
        simp only [Except.ok.injEq] at hex
        subst hex
        obtain ⟨h1, h2, h3⟩ := make_error_envelope (-32602) "Invalid params" idv
        exact ⟨fun _ => h3, fun hco => by rw [h2] at hco; exact absurd hco (by simp)⟩
      | int n =>
        simp only [Except.ok.injEq] at hex
        subst hex
        obtain ⟨h1, h2, h3⟩ := make_error_envelope (-32602) "Invalid params" idv
        exact ⟨fun _ => h3, fun hco => by rw [h2] at hco; exact absurd hco (by simp)⟩
      | str s =>
        simp only [Except.ok.injEq] at hex
        subst hex
        obtain ⟨h1, h2, h3⟩ := make_error_envelope (-32602) "Invalid params" idv
        exact ⟨fun _ => h3, fun hco => by rw [h2] at hco; exact absurd hco (by simp)⟩
      | tuple xs =>
        simp only [Except.ok.injEq] at hex
        subst hex
        obtain ⟨h1, h2, h3⟩ := make_error_envelope (-32602) "Invalid params" idv
        exact ⟨fun _ => h3, fun hco => by rw [h2] at hco; exact absurd hco (by simp)⟩
      | record c f =>
        simp only [Except.ok.injEq] at hex
        subst hex
        obtain ⟨h1, h2, h3⟩ := make_error_envelope (-32602) "Invalid params" idv
        exact ⟨fun _ => h3, fun hco => by rw [h2] at hco; exact absurd hco (by simp)⟩
      | datetime i =>
        simp only [Except.ok.injEq] at hex
        subst hex
        obtain ⟨h1, h2, h3⟩ := make_error_envelope (-32602) "Invalid params" idv
        exact ⟨fun _ => h3, fun hco => by rw [h2] at hco; exact absurd hco (by simp)⟩

/-- Witness for C10: with a null request id, the -32601 Error envelope has
no `id` key while the success envelope for an identical id carries
`"id": null`. -/
theorem error_id_only_when_nonnull_witness :
    envHasId (make_error (-32601) "Method not found" PyVal.none) = false ∧
    envIdValue (successResponse (.int 5) PyVal.none) = some PyVal.none := by
  constructor
  · have h := (error_id_only_when_nonnull mathRegistry
      (.str "mathService.nope") (.list []) PyVal.none
      (make_error (-32601) "Method not found" PyVal.none)
      (execNope_param (.list []) PyVal.none)).1
      (by simp [make_error, envHasError, isNone, lookupStr])
    simpa [isNone] using h
  · have h := (error_id_only_when_nonnull mathRegistry
      (.str "mathService.add") (.list [.int 2, .int 3]) PyVal.none
      (successResponse (.int 5) PyVal.none)
      (execAdd23_param PyVal.none)).2
      (by simp [successResponse, envHasResult, lookupStr])
    exact h

/-- Distinctness of declared field names (Python dataclasses cannot declare
the same field twice). -/
def nodupKeysB : List (String × Ty) → Bool
  | [] => true
  | (n, _) :: rest => !(rest.any fun p => p.1 == n) && nodupKeysB rest

mutual
/-- The types on which decode-after-encode is the identity: scalars and the
datetime adapter, and lists, mappings and records built from such types
(records additionally need their declared field names distinct).  `tupleOf`
and `setOf` are excluded — `convert_arg` rebuilds them as Python lists — and
so is `anyTy`, for which `to_dict` may still rewrite the value. -/
def roundTy : Ty → Bool
  | .intTy => true
  | .strTy => true
  | .boolTy => true
  | .datetimeTy => true
  | .listOf t => roundTy t
  | .dictOf kt vt => roundTy kt && roundTy vt
  | .recordTy _ fields => roundFields fields && nodupKeysB fields
  | _ => false

def roundFields : List (String × Ty) → Bool
  | [] => true
  | (_, t) :: rest => roundTy t && roundFields rest
end

/-- The typing relation between a Python value and a declared type: ints,
strings, bools and datetimes at their scalar/adapter types; lists of typed
elements; dicts of typed keys and values; dataclass instances whose fields
are exactly the declared names in declared order with typed values. -/
inductive HasTy : PyVal → Ty → Prop where
  | int (n : Int) : HasTy (.int n) .intTy
  | str (s : String) : HasTy (.str s) .strTy
  | bool (b : Bool) : HasTy (.bool b) .boolTy
  | dt (s : String) : HasTy (.datetime s) .datetimeTy
  | list (xs : List PyVal) (t : Ty) :
      (∀ x ∈ xs, HasTy x t) → HasTy (.list xs) (.listOf t)
  | dict (kvs : List (PyVal × PyVal)) (kt vt : Ty) :
      (∀ p ∈ kvs, HasTy p.1 kt) → (∀ p ∈ kvs, HasTy p.2 vt) →
      HasTy (.dict kvs) (.dictOf kt vt)
  | record (name : String) (fvals : List (String × PyVal))
      (ftys : List (String × Ty)) :
      fvals.map Prod.fst = ftys.map Prod.fst →
      (∀ p ∈ fvals.zip ftys, HasTy p.1.2 p.2.2) →
      HasTy (.record name fvals) (.recordTy name ftys)

/-- Element-wise round trip lifts to lists. -/
theorem convertList_toDictList :
    ∀ (xs : List PyVal) (t : Ty),
      (∀ x ∈ xs, convert_arg (toDict x) t = .ok x) →
      convertList (toDictList xs) t = .ok xs := by
  intro xs t
  induction xs with
  | nil => intro _; simp [toDictList, convertList]
  | cons x rest ih =>
    intro h
    have hx := h x (List.mem_cons_self _ _)
    have hrest := ih fun y hy => h y (List.mem_cons_of_mem _ hy)
    simp [toDictList, convertList, hx, hrest]

/-- Pair-wise round trip lifts to key/value mappings. -/
theorem convertPairs_toDictPairs :
    ∀ (kvs : List (PyVal × PyVal)) (kt vt : Ty),
      (∀ p ∈ kvs, convert_arg (toDict p.1) kt = .ok p.1) →
      (∀ p ∈ kvs, convert_arg (toDict p.2) vt = .ok p.2) →
      convertPairs (toDictPairs kvs) kt vt = .ok kvs := by
  intro kvs kt vt
  induction kvs with
  | nil => intro _ _; simp [toDictPairs, convertPairs]
  | cons p rest ih =>
    intro hk hv
    obtain ⟨k, v⟩ := p
    have hk1 := hk (k, v) (List.mem_cons_self _ _)
    have hv1 := hv (k, v) (List.mem_cons_self _ _)
    have hrest := ih (fun q hq => hk q (List.mem_cons_of_mem _ hq))
      (fun q hq => hv q (List.mem_cons_of_mem _ hq))
    simp [toDictPairs, convertPairs, hk1, hv1, hrest]

/-- Decoding record fields never sees a wire entry whose name matches none
of the remaining declared names: a leading entry for a name that is not
among them can be dropped. -/
theorem convertFields_skip :
    ∀ (restT : List (String × Ty)) (n : String) (x : PyVal)
      (l : List (PyVal × PyVal)),
      (restT.any fun p => p.1 == n) = false →
      convertFields ((.str n, x) :: l) restT = convertFields l restT := by
  intro restT
  induction restT with
  | nil => intro n x l _; simp [convertFields]
  | cons pt rest ih =>
    intro n x l hany
    obtain ⟨fn, ft⟩ := pt
    simp only [List.any_cons, Bool.or_eq_false_iff] at hany
    obtain ⟨hne, hrest⟩ := hany
    have hnfn : (n == fn) = false := by
      rw [beq_eq_false_iff_ne] at hne ⊢
      exact fun h => hne h.symm
    have hlk : lookupStr ((.str n, x) :: l) fn = lookupStr l fn := by
      simp [lookupStr, hnfn]
    simp only [convertFields, hlk, ih n x l hrest]

/-- Field-wise round trip lifts to records: the encoded dict of a record,
decoded against the declared fields (same names, in order, no duplicates),
recovers the record's field list. -/
theorem convertFields_toDictFields :
    ∀ (fvals : List (String × PyVal)) (ftys : List (String × Ty)),
      fvals.map Prod.fst = ftys.map Prod.fst →
      nodupKeysB ftys = true →
      (∀ p ∈ fvals.zip ftys, convert_arg (toDict p.1.2) p.2.2 = .ok p.1.2) →
      convertFields (toDictFields fvals) ftys = .ok fvals := by
  intro fvals
  induction fvals with
  | nil =>
    intro ftys hnames _ _
    cases ftys with
    | nil => simp [toDictFields, convertFields]
    | cons p rest => simp at hnames
  | cons pv restV ih =>
    intro ftys hnames hnodup hzip
    obtain ⟨n, v⟩ := pv
    cases ftys with
    | nil => simp at hnames
    | cons pt restT =>
      obtain ⟨n2, t⟩ := pt
      simp only [List.map_cons, List.cons.injEq] at hnames
      obtain ⟨hn, hrestnames⟩ := hnames
      subst hn
      simp only [nodupKeysB, Bool.and_eq_true] at hnodup
      obtain ⟨hnotin, hnodup'⟩ := hnodup
      have hhead : convert_arg (toDict v) t = .ok v :=
        hzip ((n, v), (n, t)) (by simp)
      have hskip : convertFields ((.str n, toDict v) :: toDictFields restV)
          restT = convertFields (toDictFields restV) restT :=
        convertFields_skip restT n (toDict v) (toDictFields restV)
          (by simpa using hnotin)
      have htail := ih restT hrestnames hnodup'
        (fun p hp => hzip p (by simp [hp]))
      simp only [toDictFields, convertFields, lookupStr, beq_self_eq_true,
                 if_true, Option.getD_some, hhead, hskip, htail]

/-- Every declared field type of a round-trippable record field list is
itself round-trippable. -/
theorem roundFields_mem :
    ∀ (ftys : List (String × Ty)), roundFields ftys = true →
      ∀ p ∈ ftys, roundTy p.2 = true := by
  intro ftys
  induction ftys with
  | nil => intro _ p hp; simp at hp
  | cons q rest ih =>
    intro h p hp
    obtain ⟨n, t⟩ := q
    simp only [roundFields, Bool.and_eq_true] at h
    rcases List.mem_cons.mp hp with rfl | hmem
    · exact h.1
    · exact ih h.2 p hmem

/-- C3 counterexample: for the tuple type `tuple[int, int]` and the value
`(1, 2)`, decoding the encoding yields the Python list `[1, 2]`, which is a
different value — Python lists and tuples never compare equal — so the
claimed round-trip law fails for supported sequence types. -/
theorem tuple_roundtrip_fails :
    convert_arg (toDict (PyVal.tuple [.int 1, .int 2])) (Ty.tupleOf Ty.intTy)
      = .ok (.list [.int 1, .int 2])
    ∧ convert_arg (toDict (PyVal.tuple [.int 1, .int 2]))
        (Ty.tupleOf Ty.intTy)
      ≠ .ok (.tuple [.int 1, .int 2]) := by
  constructor
  · simp [toDict, toDictList, convert_arg, convertList]
  · simp [toDict, toDictList, convert_arg, convertList]

/-- C3 as amended: for every TypeDescriptor built from the scalar types, the
datetime adapter, list sequences, mappings and records with distinct field
names, and every value of that type, decoding the encoding yields the value
back: `convert_arg (to_dict v) T = v`.  Tuple- and set-typed sequences are
excluded (decode rebuilds them as lists — see the counterexample), and the
timedelta/Decimal adapters round-trip only up to IEEE-754 float rounding
and are outside this model. -/
theorem roundtrip_decode_encode (v : PyVal) (t : Ty) (hty : HasTy v t)
    (hgood : roundTy t = true) : convert_arg (toDict v) t = .ok v := by
  revert hgood
  induction hty with
  | int n => intro _; simp [toDict, convert_arg]
  | str s => intro _; simp [toDict, convert_arg]
  | bool b => intro _; simp [toDict, convert_arg]
  | dt s => intro _; simp [toDict, convert_arg]
  | list xs t h ih =>
    intro hgood
    have ht : roundTy t = true := by simpa [roundTy] using hgood
    have hconv : convertList (toDictList xs) t = .ok xs :=
      convertList_toDictList xs t fun x hx => ih x hx ht
    simp [toDict, convert_arg, hconv]
  | dict kvs kt vt hk hv ihk ihv =>
    intro hgood
    rw [show roundTy (.dictOf kt vt) = (roundTy kt && roundTy vt) from rfl,
        Bool.and_eq_true] at hgood
    have hconv : convertPairs (toDictPairs kvs) kt vt = .ok kvs :=
      convertPairs_toDictPairs kvs kt vt
        (fun p hp => ihk p hp hgood.1) (fun p hp => ihv p hp hgood.2)
    simp [toDict, convert_arg, hconv]
  | record name fvals ftys hnames hzip ih =>
    intro hgood
    rw [show roundTy (.recordTy name ftys)
          = (roundFields ftys && nodupKeysB ftys) from rfl,
        Bool.and_eq_true] at hgood
    have hconv : convertFields (toDictFields fvals) ftys = .ok fvals :=
      convertFields_toDictFields fvals ftys hnames hgood.2
        (fun p hp => ih p hp
          (roundFields_mem ftys hgood.1 p.2 (List.of_mem_zip hp).2))
    simp [toDict, convert_arg, hconv]

/-- Witness for C3: the `UserData` record of the module's example — a string
field and a datetime field — survives the encode/decode round trip, its
`lastlogin` recovering the parsed timestamp. -/
theorem roundtrip_decode_encode_scenario :
    convert_arg (toDict (PyVal.record "UserData"
        [("username", .str "Alice"),
         ("lastlogin", .datetime "2024-01-01T00:00:00")])) userDataTy
      = .ok (PyVal.record "UserData"
          [("username", .str "Alice"),
           ("lastlogin", .datetime "2024-01-01T00:00:00")]) := by
  have hty : HasTy (PyVal.record "UserData"
      [("username", .str "Alice"),
       ("lastlogin", .datetime "2024-01-01T00:00:00")]) userDataTy := by
    rw [userDataTy]
    refine HasTy.record "UserData" _ _ (by simp) ?_
    intro p hp
    simp only [List.zip_cons_cons, List.zip_nil_right, List.mem_cons,
               List.mem_singleton] at hp
    rcases hp with rfl | hp
    · exact HasTy.str "Alice"
    · rcases hp with rfl | hp
      · exact HasTy.dt "2024-01-01T00:00:00"
      · simp at hp
  exact roundtrip_decode_encode _ userDataTy hty
    (by simp [userDataTy, roundTy, roundFields, nodupKeysB])
